import Mathlib

set_option maxRecDepth 100000

/-!
  Verification of the `s33` modem scraping module of tparker00/surfer.

  The Go source (`src/modem/s33/s33.go`) is shallowly embedded below:

  * `strings.Split` is embedded as two executable splitters over `List Char`,
    one for the row separator `"|+|"` and one for the column separator `"^"`
    (both separators are ASCII, so a rune-level split coincides with Go's
    byte-level split).
  * `strconv.ParseFloat` is embedded as `goParseFloat`, a parser for the
    finite decimal forms of Go's float syntax returning an exact rational.
    `Inf`/`NaN`, hexadecimal floats and underscore spellings are not modelled
    (no claim here involves them), and values are kept as exact rationals
    rather than rounded binary64, since every claim depends only on
    zero-versus-parsed and on exact decimal values.
  * Go maps with string keys are embedded as association lists with
    replace-or-append insertion (`goMapInsert`), which preserves the
    key-uniqueness of Go maps.
  * The structs of the `modem` package (`modem.Signal`, `modem.Downstream`,
    `modem.Upstream`, `modem.Channel`) are not under `src/`; their fields are
    reconstructed from their uses in `s33.go` and `s33_test.go` and from the
    spec's data-model section.
  * `crypto/md5` and `crypto/hmac` are embedded as a full executable MD5
    (RFC 1321) and HMAC (RFC 2104) over byte lists, validated below against
    published test vectors.
  * Wall-clock time (`time.Now().UnixNano()`) and the `-password` flag are
    ambient inputs of the Go code and become explicit parameters.
  * Network I/O is not modelled; the pure cores of `auth`, `probe` and
    `Status` (everything those claims are about) are embedded as functions of
    the response bodies / file bytes they consume.
-/

namespace Surfer

/-! ## Embedding of `strings.Split` for the two concrete separators -/

/-- Split a character list at every occurrence of the column separator `'^'`,
matching Go's `strings.Split(row, "^")`: the empty input yields one empty
field, and `n` separators yield `n + 1` fields. -/
def splitCaret : List Char → List (List Char)
  | [] => [[]]
  | c :: rest =>
    if c = '^' then [] :: splitCaret rest
    else
      match splitCaret rest with
      | [] => [[c]]
      | h :: t => (c :: h) :: t

/-- Split a character list at every occurrence of the row separator `"|+|"`,
matching Go's `strings.Split(t, "|+|")` with its left-to-right,
non-overlapping scan. -/
def splitRowSep : List Char → List (List Char)
  | '|' :: '+' :: '|' :: rest => [] :: splitRowSep rest
  | c :: rest =>
    match splitRowSep rest with
    | [] => [[c]]
    | h :: t => (c :: h) :: t
  | [] => [[]]

/-- Row list of a raw table payload, as `strings.Split(t, "|+|")` produces. -/
def goSplitRows (t : String) : List String :=
  (splitRowSep t.data).map fun l => String.mk l

/-- Column list of one row, as `strings.Split(row, "^")` produces. -/
def goSplitCols (row : String) : List String :=
  (splitCaret row.data).map fun l => String.mk l

/-! ## Embedding of `strconv.ParseFloat` (finite decimal forms) -/

/-- Strip a maximal run of leading decimal digits. -/
def takeDigits : List Char → List Char × List Char
  | [] => ([], [])
  | c :: rest =>
    if c.isDigit then
      match takeDigits rest with
      | (ds, r) => (c :: ds, r)
    else ([], c :: rest)

/-- Value of a digit run, most significant first. -/
def digitsToNat (acc : Nat) : List Char → Nat
  | [] => acc
  | c :: rest => digitsToNat (acc * 10 + (c.toNat - 48)) rest

/-- Exponent part of a decimal float: optional sign, then one or more digits,
consuming the whole remainder. -/
def goParseExp (m : ℚ) (l : List Char) : Option ℚ :=
  let p : Int × List Char :=
    match l with
    | '+' :: r => (1, r)
    | '-' :: r => (-1, r)
    | _ => (1, l)
  match takeDigits p.2 with
  | (ed, l2) =>
    if ed.isEmpty || !l2.isEmpty then none
    else some (m * (10 : ℚ) ^ (p.1 * (digitsToNat 0 ed : Int)))

/-- Embedding of `strconv.ParseFloat` restricted to the finite decimal forms
`[sign] (digits [. digits] | . digits) [e|E [sign] digits]`.  Returns `none`
exactly when Go reports a syntax error on such inputs. -/
def goParseFloat (s : String) : Option ℚ :=
  let p1 : ℚ × List Char :=
    match s.data with
    | '+' :: r => (1, r)
    | '-' :: r => (-1, r)
    | _ => (1, s.data)
  match takeDigits p1.2 with
  | (ip, l2) =>
    let p2 : List Char × List Char :=
      match l2 with
      | '.' :: r => takeDigits r
      | _ => ([], l2)
    if ip.isEmpty && p2.1.isEmpty then none
    else
      let mant : ℚ :=
        p1.1 * ((digitsToNat 0 ip : ℚ) + (digitsToNat 0 p2.1 : ℚ) / (10 : ℚ) ^ p2.1.length)
      match p2.2 with
      | [] => some mant
      | 'e' :: r => goParseExp mant r
      | 'E' :: r => goParseExp mant r
      | _ => none

/-- The value Go's `f, _ := strconv.ParseFloat(fv, 64)` leaves in `f`: the
parsed value, or `0` on a syntax error. -/
def goFloatD (s : String) : ℚ :=
  (goParseFloat s).getD 0

/-! ## Data model (the `modem` package structs, reconstructed from their uses
in `s33.go` / `s33_test.go` and the spec's §3 data model) -/

/-- One downstream channel record (`modem.Downstream`). -/
structure Downstream where
  Modulation : String := ""
  Frequency : String := ""
  PowerLevel : ℚ := 0
  SNR : ℚ := 0
  Correctable : ℚ := 0
  Uncorrectable : ℚ := 0
deriving DecidableEq

/-- One upstream channel record (`modem.Upstream`). -/
structure Upstream where
  Frequency : String := ""
  PowerLevel : ℚ := 0
  Modulation : String := ""
  Status : String := ""
deriving DecidableEq

/-- Insertion into a Go map embedded as an association list: replace the value
at an existing key, otherwise append the new binding. -/
def goMapInsert {α : Type} (k : String) (v : α) : List (String × α) → List (String × α)
  | [] => [(k, v)]
  | (k', v') :: rest =>
    if k' = k then (k, v) :: rest else (k', v') :: goMapInsert k v rest

/-- Key list of an embedded Go map. -/
def goMapKeys {α : Type} (m : List (String × α)) : List String :=
  m.map Prod.fst

/-- One loop iteration of either table parser: compute the channel id and the
record of a row with `f` and store the record under the id (`m[ch] = d`). -/
def insRow {α : Type} (f : String → String × α) (m : List (String × α)) (row : String) :
    List (String × α) :=
  goMapInsert (f row).1 (f row).2 m

/-- A parsed signal snapshot (`modem.Signal`): one map per direction, keyed by
channel identifier (`modem.Channel` is a string). -/
structure Signal where
  Downstream : List (String × Downstream) := []
  Upstream : List (String × Upstream) := []
deriving DecidableEq

/-! ## The table parsers (`parseDownstreamTable` / `parseUpstreamTable`) -/

/-- One iteration of the column switch of `parseDownstreamTable`
(s33.go lines 409-437): index 2 is modulation, 3 the channel id, 4 the
frequency (suffixed with " Hz"), 5-8 the numeric fields; all other indices,
including the logged `default` branch, leave the state unchanged.  The state
pairs the channel variable `ch` with the record `d`. -/
def downStep (i : Nat) (col : String) (st : String × Downstream) : String × Downstream :=
  if i = 2 then (st.1, { st.2 with Modulation := col })
  else if i = 3 then (col, st.2)
  else if i = 4 then (st.1, { st.2 with Frequency := col ++ " Hz" })
  else if i = 5 then (st.1, { st.2 with PowerLevel := goFloatD col })
  else if i = 6 then (st.1, { st.2 with SNR := goFloatD col })
  else if i = 7 then (st.1, { st.2 with Correctable := goFloatD col })
  else if i = 8 then (st.1, { st.2 with Uncorrectable := goFloatD col })
  else st

/-- The indexed column loop of `parseDownstreamTable`. -/
def downLoop : Nat → List String → String × Downstream → String × Downstream
  | _, [], st => st
  | i, col :: rest, st => downLoop (i + 1) rest (downStep i col st)

/-- Channel id and record produced from one downstream row: the columns are
split on `"^"`, the trailing field is dropped (`cols[:len(cols)-1]`), and the
remainder is folded through the column switch. -/
def downRow (row : String) : String × Downstream :=
  downLoop 0 (goSplitCols row).dropLast ("", {})

/-- Embedding of `parseDownstreamTable` (s33.go lines 395-442).  The guard is
the source's `if len(rows) < 0`, a condition that can never hold. -/
def parseDownstreamTable (t : String) : Except String (List (String × Downstream)) :=
  let rows := goSplitRows t
  if rows.length < 0 then Except.error "No channels returned"
  else Except.ok (rows.foldl (insRow downRow) [])

/-- One iteration of the column switch of `parseUpstreamTable`
(s33.go lines 458-480): index 1 is the lock status, 2 the modulation, 3 the
channel id, 5 the frequency (suffixed with " Hz"), 6 the power level; all
other indices leave the state unchanged. -/
def upStep (i : Nat) (col : String) (st : String × Upstream) : String × Upstream :=
  if i = 1 then (st.1, { st.2 with Status := col })
  else if i = 2 then (st.1, { st.2 with Modulation := col })
  else if i = 3 then (col, st.2)
  else if i = 5 then (st.1, { st.2 with Frequency := col ++ " Hz" })
  else if i = 6 then (st.1, { st.2 with PowerLevel := goFloatD col })
  else st

/-- The indexed column loop of `parseUpstreamTable`. -/
def upLoop : Nat → List String → String × Upstream → String × Upstream
  | _, [], st => st
  | i, col :: rest, st => upLoop (i + 1) rest (upStep i col st)

/-- Channel id and record produced from one upstream row. -/
def upRow (row : String) : String × Upstream :=
  upLoop 0 (goSplitCols row).dropLast ("", {})

/-- Embedding of `parseUpstreamTable` (s33.go lines 444-485): fewer than three
rows is a structural error carrying the row count. -/
def parseUpstreamTable (t : String) : Except String (List (String × Upstream)) :=
  let rows := goSplitRows t
  if rows.length ≤ 2 then
    Except.error ("Expected more than channels, got " ++ toString rows.length)
  else Except.ok (rows.foldl (insRow upRow) [])

/-! ## The status envelope and `parseStatus` / `Status` -/

/-- The decoded `statusResponse` envelope, flattened: the two `Info` strings
are the raw tables handed to the parsers; the `Result` strings are carried
but never read by `parseStatus`. -/
structure StatusResponse where
  DownstreamInfo : String := ""
  DownstreamResult : String := ""
  UpstreamInfo : String := ""
  UpstreamResult : String := ""
  Result : String := ""
deriving DecidableEq

/-- Embedding of `parseStatus` (s33.go lines 380-393): parse the downstream
table, then the upstream table, propagating the first error. -/
def parseStatus (s : StatusResponse) : Except String Signal :=
  match parseDownstreamTable s.DownstreamInfo with
  | Except.error e => Except.error e
  | Except.ok d =>
    match parseUpstreamTable s.UpstreamInfo with
    | Except.error e => Except.error e
    | Except.ok u => Except.ok { Downstream := d, Upstream := u }

/-- Embedding of the fake-data path of `s33.Status` (s33.go lines 123-127):
`json.Unmarshal`'s error value is discarded by the source, so the decode
outcome enters only through the envelope `unmarshalled` that the unmarshal
left behind — for bytes that are not valid JSON, the zero-valued envelope —
and the discarded error `e` is ignored entirely. -/
def statusFakeData (unmarshalled : StatusResponse) (e : Option String) : Except String Signal :=
  parseStatus unmarshalled

/-! ## Substring containment (`strings.Contains` / `bytes.Contains`) -/

/-- Whether the first list is an initial segment of the second. -/
def isPrefixList : List Char → List Char → Bool
  | [], _ => true
  | _ :: _, [] => false
  | a :: as, b :: bs => a = b && isPrefixList as bs

/-- Whether `needle` occurs contiguously in `hay`; embedding of Go's
`strings.Contains` / `bytes.Contains` (the needles at issue are ASCII, so
rune-level containment coincides with byte-level containment). -/
def containsSub (hay needle : List Char) : Bool :=
  match hay with
  | [] => needle.isEmpty
  | _ :: rest => isPrefixList needle hay || containsSub rest needle

/-- String-level wrapper for `containsSub`. -/
def strContains (s sub : String) : Bool :=
  containsSub s.data sub.data

/-! ## MD5 (RFC 1321) and HMAC (RFC 2104), the `crypto/md5` and `crypto/hmac`
dependencies of `encrypt`.  Bytes are naturals below 256; 32-bit words are
naturals reduced modulo `2 ^ 32`. -/

/-- Reduction to a 32-bit word. -/
def w32 (n : Nat) : Nat := n % 4294967296

/-- 32-bit complement. -/
def bnot32 (n : Nat) : Nat := 4294967295 ^^^ n

/-- 32-bit left rotation (the argument is assumed already reduced). -/
def rotl32 (x s : Nat) : Nat :=
  w32 (x <<< s) ||| (x >>> (32 - s))

/-- The 64 MD5 sine-derived round constants. -/
def md5K : List Nat :=
  [0xd76aa478, 0xe8c7b756, 0x242070db, 0xc1bdceee,
   0xf57c0faf, 0x4787c62a, 0xa8304613, 0xfd469501,
   0x698098d8, 0x8b44f7af, 0xffff5bb1, 0x895cd7be,
   0x6b901122, 0xfd987193, 0xa679438e, 0x49b40821,
   0xf61e2562, 0xc040b340, 0x265e5a51, 0xe9b6c7aa,
   0xd62f105d, 0x02441453, 0xd8a1e681, 0xe7d3fbc8,
   0x21e1cde6, 0xc33707d6, 0xf4d50d87, 0x455a14ed,
   0xa9e3e905, 0xfcefa3f8, 0x676f02d9, 0x8d2a4c8a,
   0xfffa3942, 0x8771f681, 0x6d9d6122, 0xfde5380c,
   0xa4beea44, 0x4bdecfa9, 0xf6bb4b60, 0xbebfbc70,
   0x289b7ec6, 0xeaa127fa, 0xd4ef3085, 0x04881d05,
   0xd9d4d039, 0xe6db99e5, 0x1fa27cf8, 0xc4ac5665,
   0xf4292244, 0x432aff97, 0xab9423a7, 0xfc93a039,
   0x655b59c3, 0x8f0ccc92, 0xffeff47d, 0x85845dd1,
   0x6fa87e4f, 0xfe2ce6e0, 0xa3014314, 0x4e0811a1,
   0xf7537e82, 0xbd3af235, 0x2ad7d2bb, 0xeb86d391]

/-- The 64 MD5 per-round left-rotation amounts. -/
def md5S : List Nat :=
  [7, 12, 17, 22, 7, 12, 17, 22, 7, 12, 17, 22, 7, 12, 17, 22,
   5, 9, 14, 20, 5, 9, 14, 20, 5, 9, 14, 20, 5, 9, 14, 20,
   4, 11, 16, 23, 4, 11, 16, 23, 4, 11, 16, 23, 4, 11, 16, 23,
   6, 10, 15, 21, 6, 10, 15, 21, 6, 10, 15, 21, 6, 10, 15, 21]

/-- Round function and message-word index for MD5 round `i`. -/
def md5F (i b c d : Nat) : Nat × Nat :=
  if i < 16 then ((b &&& c) ||| (bnot32 b &&& d), i)
  else if i < 32 then ((d &&& b) ||| (bnot32 d &&& c), (5 * i + 1) % 16)
  else if i < 48 then (b ^^^ c ^^^ d, (3 * i + 5) % 16)
  else (c ^^^ (b ||| bnot32 d), (7 * i) % 16)

/-- One MD5 round applied to the register quadruple. -/
def md5Round (M : List Nat) (st : Nat × Nat × Nat × Nat) (i : Nat) : Nat × Nat × Nat × Nat :=
  match st with
  | (a, b, c, d) =>
    match md5F i b c d with
    | (f, g) =>
      let tmp := w32 (a + f + md5K.getD i 0 + M.getD g 0)
      (d, w32 (b + rotl32 tmp (md5S.getD i 0)), b, c)

/-- Process one 512-bit block (given as 16 little-endian words). -/
def md5Block (st : Nat × Nat × Nat × Nat) (M : List Nat) : Nat × Nat × Nat × Nat :=
  match (List.range 64).foldl (md5Round M) st with
  | (a, b, c, d) => (w32 (st.1 + a), w32 (st.2.1 + b), w32 (st.2.2.1 + c), w32 (st.2.2.2 + d))

/-- MD5 padding: a `0x80` byte, zeros to 56 mod 64, then the bit length as a
64-bit little-endian quantity. -/
def md5Pad (msg : List Nat) : List Nat :=
  let len := msg.length
  let k := (120 - (len + 1) % 64) % 64
  msg ++ [0x80] ++ List.replicate k 0 ++
    (List.range 8).map fun i => ((8 * len) % 18446744073709551616) >>> (8 * i) % 256

/-- Chunk a byte list into 64-byte blocks (fuel-driven; the fuel is the list
length, which strictly exceeds the number of chunks). -/
def chunks64 : Nat → List Nat → List (List Nat)
  | _, [] => []
  | 0, l => [l]
  | fuel + 1, l => l.take 64 :: chunks64 fuel (l.drop 64)

/-- The 16 little-endian 32-bit words of one 64-byte block. -/
def blockWords (block : List Nat) : List Nat :=
  (List.range 16).map fun j =>
    block.getD (4 * j) 0 + 256 * block.getD (4 * j + 1) 0 +
      65536 * block.getD (4 * j + 2) 0 + 16777216 * block.getD (4 * j + 3) 0

/-- Little-endian bytes of one 32-bit word. -/
def wordBytes (n : Nat) : List Nat :=
  (List.range 4).map fun i => n >>> (8 * i) % 256

/-- The MD5 digest (16 bytes) of a byte list, per RFC 1321. -/
def md5Bytes (msg : List Nat) : List Nat :=
  let padded := md5Pad msg
  let blocks := (chunks64 padded.length padded).map blockWords
  match blocks.foldl md5Block (0x67452301, 0xefcdab89, 0x98badcfe, 0x10325476) with
  | (a, b, c, d) => wordBytes a ++ wordBytes b ++ wordBytes c ++ wordBytes d

/-- HMAC-MD5 per RFC 2104 with the 64-byte MD5 block size, as `crypto/hmac`
computes it: over-long keys are first hashed, the key is zero-padded to the
block size, and the digest is `H((K xor opad) ++ H((K xor ipad) ++ msg))`. -/
def hmacMD5 (key msg : List Nat) : List Nat :=
  let k1 := if 64 < key.length then md5Bytes key else key
  let k0 := k1 ++ List.replicate (64 - k1.length) 0
  md5Bytes ((k0.map fun b => b ^^^ 0x5c) ++ md5Bytes ((k0.map fun b => b ^^^ 0x36) ++ msg))

/-- Uppercase hexadecimal digit of a value below 16. -/
def hexDigit (n : Nat) : Char :=
  if n < 10 then Char.ofNat (48 + n) else Char.ofNat (55 + n)

/-- Uppercase hexadecimal rendering of a byte list, as Go's `"%X"` verb
formats an MD5 sum. -/
def upperHexBytes (bs : List Nat) : String :=
  String.mk ((bs.map fun b => [hexDigit (b / 16 % 16), hexDigit (b % 16)]).flatten)

/-- UTF-8 bytes of one character, as Go's `[]byte(string)` conversion
produces them. -/
def charUTF8 (c : Char) : List Nat :=
  let n := c.toNat
  if n < 128 then [n]
  else if n < 2048 then [192 + n / 64, 128 + n % 64]
  else if n < 65536 then [224 + n / 4096, 128 + n / 64 % 64, 128 + n % 64]
  else [240 + n / 262144, 128 + n / 4096 % 64, 128 + n / 64 % 64, 128 + n % 64]

/-- UTF-8 byte list of a string. -/
def utf8Bytes (s : String) : List Nat :=
  (s.data.map charUTF8).flatten

/-! ## The authentication layer (`encrypt`, `privateKey`, `encryptedPass`,
`hnapAuth`, and the pure core of `auth`) -/

/-- Embedding of `encrypt` (s33.go lines 357-362): the uppercase-hex HMAC-MD5
of `value` keyed by `key`. -/
def encrypt (key value : String) : String :=
  upperHexBytes (hmacMD5 (utf8Bytes key) (utf8Bytes value))

/-- The `loginResponse` payload fields used by the handshake. -/
structure LoginResponse where
  Challenge : String := ""
  Cookie : String := ""
  LoginResult : String := ""
  PublicKey : String := ""
deriving DecidableEq

/-- Embedding of `privateKey` (s33.go lines 244-246); the `-password` flag is
the explicit parameter `password`. -/
def privateKey (l : LoginResponse) (password : String) : String :=
  encrypt (l.PublicKey ++ password) l.Challenge

/-- Embedding of `encryptedPass` (s33.go lines 248-250). -/
def encryptedPass (l : LoginResponse) (pk : String) : String :=
  encrypt pk l.Challenge

/-- The HNAP base URL (`hnapBase`). -/
def hnapBase : String := "http://purenetworks.com/HNAP1"

/-- Embedding of `hnapAuth` (s33.go lines 252-255); the wall clock enters as
the explicit parameter `nanos` (the value of `time.Now().UnixNano()`). -/
def hnapAuth (nanos : Nat) (pk action : String) : String :=
  let t := nanos / 1000000 % 2000000000000
  encrypt pk (toString t ++ (hnapBase ++ "/" ++ action)) ++ " " ++ toString t

/-- One cookie as `auth` constructs it. -/
structure Cookie where
  Name : String
  Value : String
  Path : String
  Secure : Bool
deriving DecidableEq

/-- Pure core of `auth` (s33.go lines 291-355): given the decoded first-stage
`loginResponse`, the configured password and the body of the second (login)
response, either the cookie pair that `auth` installs and returns, or the
`"Login Failed"` error.  The transport steps around this core only move the
bytes that are parameters here. -/
def authCore (l : LoginResponse) (password : String) (body : String) :
    Except String (List Cookie) :=
  let pk := privateKey l password
  if strContains body "OK" then
    Except.ok
      [{ Name := "uid", Value := l.Cookie, Path := "/", Secure := true },
       { Name := "PrivateKey", Value := pk, Path := "/", Secure := true }]
  else Except.error "Login Failed"

/-! ## Probing (`isS33`, the fixture path of `probe`, `Name`) -/

/-- The S33 signature marker checked by `isS33` (s33.go lines 140-142). -/
def s33Marker : String := "<span id=\"thisModelNumberIs\"> S33 </span>"

/-- Embedding of `isS33`: does the byte content contain the marker? -/
def isS33 (b : String) : Bool :=
  strContains b s33Marker

/-- The `s33` struct: a fixture-backed instance stores the captured bytes. -/
structure S33 where
  fakeData : String
deriving DecidableEq

/-- Embedding of `Name` (s33.go line 101). -/
def S33.Name (_ : S33) : String := "S33"

/-- Pure core of the fixture branch of `probe` (s33.go lines 144-160): given
the bytes read from a readable fixture file, return a fixture-backed instance
exactly when the content carries the S33 marker. -/
def probeFixture (b : String) : Option S33 :=
  if isS33 b then some { fakeData := b } else none

/-! ## Derived forms used to state the claims -/

/-- Closed form of the downstream column loop: each output field is a function
of its own column alone (index 2 modulation, 3 channel id, 4 frequency with
the " Hz" suffix, 5 power, 6 SNR, 7 correctable, 8 uncorrectable), with the
record's zero value where the column is absent. -/
def downClosed (cols : List String) : String × Downstream :=
  (cols.getD 3 "",
   { Modulation := cols.getD 2 "",
     Frequency := if 4 < cols.length then cols.getD 4 "" ++ " Hz" else "",
     PowerLevel := goFloatD (cols.getD 5 ""),
     SNR := goFloatD (cols.getD 6 ""),
     Correctable := goFloatD (cols.getD 7 ""),
     Uncorrectable := goFloatD (cols.getD 8 "") })

/-- Closed form of the upstream column loop: index 1 lock status, 2 modulation,
3 channel id, 5 frequency with the " Hz" suffix, 6 power. -/
def upClosed (cols : List String) : String × Upstream :=
  (cols.getD 3 "",
   { Frequency := if 5 < cols.length then cols.getD 5 "" ++ " Hz" else "",
     PowerLevel := goFloatD (cols.getD 6 ""),
     Modulation := cols.getD 2 "",
     Status := cols.getD 1 "" })

/-- A decimal integer numeral: an optional minus sign followed by one or more
digits. -/
def isIntNumeral : List Char → Bool
  | '-' :: ds => !ds.isEmpty && ds.all Char.isDigit
  | ds => !ds.isEmpty && ds.all Char.isDigit

/-- Decidable reading of the claimed canonical form: the string representation
of an integer followed by " Hz". -/
def isCanonicalIntHz (s : String) : Bool :=
  decide (3 ≤ s.data.length) &&
    s.data.drop (s.data.length - 3) == [' ', 'H', 'z'] &&
    isIntNumeral (s.data.take (s.data.length - 3))

/-- Selector for the numeric downstream fields by their source column index. -/
def downNumField (j : Nat) (d : Downstream) : ℚ :=
  if j = 5 then d.PowerLevel
  else if j = 6 then d.SNR
  else if j = 7 then d.Correctable
  else if j = 8 then d.Uncorrectable
  else 0

end Surfer

deriving instance DecidableEq for Except

namespace Surfer

/-! ## Structural lemmas about the column loops -/

/-- Column indices nine and above fall into the logged `default` branch of the
downstream switch and leave the state unchanged. -/
theorem downStep_high (i : Nat) (col : String) (st : String × Downstream)
    (h : 9 ≤ i) : downStep i col st = st := by
  simp only [downStep, if_neg (show ¬ i = 2 by omega), if_neg (show ¬ i = 3 by omega),
    if_neg (show ¬ i = 4 by omega), if_neg (show ¬ i = 5 by omega),
    if_neg (show ¬ i = 6 by omega), if_neg (show ¬ i = 7 by omega),
    if_neg (show ¬ i = 8 by omega)]

/-- Once the index passes the last meaningful column, the downstream loop is
the identity. -/
theorem downLoop_high (cols : List String) : ∀ (i : Nat), 9 ≤ i →
    ∀ st, downLoop i cols st = st := by
  induction cols with
  | nil => intro i h st; rfl
  | cons c rest ih =>
    intro i h st
    show downLoop (i + 1) rest (downStep i c st) = st
    rw [downStep_high i c st h]
    exact ih (i + 1) (by omega) st

/-- The downstream column loop computes the closed form `downClosed`: each
output field is determined by its own column alone. -/
theorem downLoop_closed (cols : List String) :
    downLoop 0 cols ("", {}) = downClosed cols := by
  have he : goFloatD "" = 0 := by decide
  rcases cols with _ | ⟨c0, _ | ⟨c1, _ | ⟨c2, _ | ⟨c3, _ | ⟨c4, _ | ⟨c5, _ | ⟨c6, _ | ⟨c7, _ |
    ⟨c8, rest⟩⟩⟩⟩⟩⟩⟩⟩⟩ <;>
    simp [downLoop, downStep, downClosed, he, downLoop_high, List.getD]

/-- Column indices seven and above fall into the logged `default` branch of
the upstream switch and leave the state unchanged. -/
theorem upStep_high (i : Nat) (col : String) (st : String × Upstream)
    (h : 7 ≤ i) : upStep i col st = st := by
  simp only [upStep, if_neg (show ¬ i = 1 by omega), if_neg (show ¬ i = 2 by omega),
    if_neg (show ¬ i = 3 by omega), if_neg (show ¬ i = 5 by omega),
    if_neg (show ¬ i = 6 by omega)]

/-- Once the index passes the last meaningful column, the upstream loop is the
identity. -/
theorem upLoop_high (cols : List String) : ∀ (i : Nat), 7 ≤ i →
    ∀ st, upLoop i cols st = st := by
  induction cols with
  | nil => intro i h st; rfl
  | cons c rest ih =>
    intro i h st
    show upLoop (i + 1) rest (upStep i c st) = st
    rw [upStep_high i c st h]
    exact ih (i + 1) (by omega) st

/-- The upstream column loop computes the closed form `upClosed`. -/
theorem upLoop_closed (cols : List String) :
    upLoop 0 cols ("", {}) = upClosed cols := by
  have he : goFloatD "" = 0 := by decide
  rcases cols with _ | ⟨c0, _ | ⟨c1, _ | ⟨c2, _ | ⟨c3, _ | ⟨c4, _ | ⟨c5, _ | ⟨c6, rest⟩⟩⟩⟩⟩⟩⟩ <;>
    simp [upLoop, upStep, upClosed, he, upLoop_high, List.getD]

/-! ## Lemmas about the embedded Go map and the insertion fold -/

/-- The key list after an insertion: unchanged when the key was present (the
binding is replaced in place), otherwise extended by the new key. -/
theorem goMapKeys_insert {α : Type} (k : String) (v : α) (m : List (String × α)) :
    goMapKeys (goMapInsert k v m) =
      if k ∈ goMapKeys m then goMapKeys m else goMapKeys m ++ [k] := by
  induction m with
  | nil => simp [goMapInsert, goMapKeys]
  | cons p rest ih =>
    by_cases h : p.1 = k
    · simp [goMapInsert, goMapKeys, h]
    · have hne : ¬ k = p.1 := fun hk => h hk.symm
      simp only [goMapInsert, if_neg h, goMapKeys, List.map_cons] at ih ⊢
      rw [ih]
      by_cases hm : k ∈ List.map Prod.fst rest <;>
        simp [hm, hne, List.mem_cons]

/-- Membership in the keys of a map after insertion. -/
theorem mem_goMapKeys_insert {α : Type} (k a : String) (v : α) (m : List (String × α)) :
    a ∈ goMapKeys (goMapInsert k v m) ↔ a = k ∨ a ∈ goMapKeys m := by
  rw [goMapKeys_insert]
  by_cases hm : k ∈ goMapKeys m
  · simp only [if_pos hm]
    constructor
    · exact Or.inr
    · rintro (rfl | h)
      · exact hm
      · exact h
  · simp [if_neg hm, List.mem_append, or_comm]

/-- Insertion never removes a key and adds at most the inserted key, so key
uniqueness is preserved. -/
theorem nodup_goMapKeys_insert {α : Type} (k : String) (v : α) (m : List (String × α))
    (h : (goMapKeys m).Nodup) : (goMapKeys (goMapInsert k v m)).Nodup := by
  rw [goMapKeys_insert]
  by_cases hm : k ∈ goMapKeys m
  · simpa [if_pos hm] using h
  · simpa [if_neg hm, List.nodup_append] using ⟨h, fun hmem => hm hmem⟩

/-- Keys present before the insertion fold are still present after it. -/
theorem mem_goMapKeys_foldl {α : Type} (f : String → String × α) :
    ∀ (rows : List String) (m : List (String × α)) (a : String),
      a ∈ goMapKeys m → a ∈ goMapKeys (rows.foldl (insRow f) m) := by
  intro rows
  induction rows with
  | nil => intro m a h; exact h
  | cons r rest ih =>
    intro m a h
    exact ih _ a ((mem_goMapKeys_insert _ _ _ _).2 (Or.inr h))

/-- Every processed row's channel id is a key of the fold result. -/
theorem row_mem_goMapKeys_foldl {α : Type} (f : String → String × α) :
    ∀ (rows : List String) (m : List (String × α)) (r : String),
      r ∈ rows → (f r).1 ∈ goMapKeys (rows.foldl (insRow f) m) := by
  intro rows
  induction rows with
  | nil => intro m r h; cases h
  | cons r0 rest ih =>
    intro m r h
    rcases List.mem_cons.1 h with rfl | h
    · exact mem_goMapKeys_foldl f rest _ _ ((mem_goMapKeys_insert _ _ _ _).2 (Or.inl rfl))
    · exact ih _ r h

/-- The insertion fold preserves key uniqueness. -/
theorem nodup_goMapKeys_foldl {α : Type} (f : String → String × α) :
    ∀ (rows : List String) (m : List (String × α)),
      (goMapKeys m).Nodup → (goMapKeys (rows.foldl (insRow f) m)).Nodup := by
  intro rows
  induction rows with
  | nil => intro m h; exact h
  | cons r rest ih =>
    intro m h
    exact ih _ (nodup_goMapKeys_insert _ _ _ h)

/-! ## Claim theorems -/

/-- C1 (code bug): the spec requires a payload with fewer rows than the
table's minimum — in particular a structurally empty table — to be a hard
structural error, and the source even constructs the "No channels returned"
error, but guards it with `len(rows) < 0`, a condition that never holds.  So
`parseDownstreamTable` never returns an error at all: on the empty payload it
returns a map holding one zero-valued record under the empty channel key, and
`parseStatus` succeeds on an envelope whose downstream table is empty whenever
the upstream table has enough rows, yielding exactly the partially empty map
the spec rules out.  (The upstream parser does enforce its minimum of more
than two rows.) -/
theorem parseDownstreamTable_accepts_empty_payload :
    (∀ t, ∃ m, parseDownstreamTable t = Except.ok m) ∧
    parseDownstreamTable "" = Except.ok [("", {})] ∧
    parseUpstreamTable "" = Except.error "Expected more than channels, got 1" ∧
    parseStatus { DownstreamInfo := "",
                  UpstreamInfo := "a^L^M^5^w^f^p^|+|a^L^M^6^w^f^p^|+|a^L^M^7^w^f^p^" } =
      Except.ok
        { Downstream := [("", {})],
          Upstream :=
            [("5", { Frequency := "f Hz", PowerLevel := 0, Modulation := "M", Status := "L" }),
             ("6", { Frequency := "f Hz", PowerLevel := 0, Modulation := "M", Status := "L" }),
             ("7", { Frequency := "f Hz", PowerLevel := 0, Modulation := "M", Status := "L" })] } := by
  refine ⟨fun t => ⟨(goSplitRows t).foldl (insRow downRow) [], ?_⟩, by decide, by decide, by decide⟩
  simp [parseDownstreamTable]

/-- C10: on a fixture whose bytes are not valid JSON, `Status` discards the
`json.Unmarshal` error (the envelope stays zero-valued) and proceeds to table
parsing; the error it then returns is the upstream parser's row-count error on
the empty table string, not a decode error — the downstream parse of the empty
string even succeeds. -/
theorem status_fake_data_ignores_decode_error (e : Option String) :
    statusFakeData {} e = parseStatus {} ∧
    (∃ m, parseDownstreamTable "" = Except.ok m) ∧
    parseStatus {} =
      Except.error ("Expected more than channels, got " ++ toString (goSplitRows "").length) ∧
    (goSplitRows "").length = 1 := by
  exact ⟨rfl, ⟨[("", {})], by decide⟩, by decide, by decide⟩

/-- C4: the derived private key is the uppercase-hex HMAC-MD5 of the
challenge keyed by the public key concatenated with the configured password;
the derived encrypted password is the uppercase-hex HMAC-MD5 of the challenge
keyed by that private key; and `encrypt` is exactly uppercase-hex HMAC-MD5
with the given key over the given value. -/
theorem privateKey_encryptedPass_are_hmac_md5 (ch cook res pub w k v : String) :
    privateKey { Challenge := ch, Cookie := cook, LoginResult := res, PublicKey := pub } w =
      upperHexBytes (hmacMD5 (utf8Bytes (pub ++ w)) (utf8Bytes ch)) ∧
    encryptedPass { Challenge := ch, Cookie := cook, LoginResult := res, PublicKey := pub }
        (privateKey { Challenge := ch, Cookie := cook, LoginResult := res, PublicKey := pub } w) =
      upperHexBytes
        (hmacMD5
          (utf8Bytes (privateKey
            { Challenge := ch, Cookie := cook, LoginResult := res, PublicKey := pub } w))
          (utf8Bytes ch)) ∧
    encrypt k v = upperHexBytes (hmacMD5 (utf8Bytes k) (utf8Bytes v)) :=
  ⟨rfl, rfl, rfl⟩

/-- C3: for any call time, the authentication header is the uppercase-hex
HMAC-MD5, keyed by the private key, of the decimal timestamp
`t = epoch-milliseconds mod 2 * 10 ^ 12` concatenated with the action URL
`http://purenetworks.com/HNAP1/<action>`, followed by a single space and the
decimal rendering of `t`; headers computed at two times therefore differ only
in the timestamp component and the hash covering it. -/
theorem hnapAuth_is_hmac_of_timestamp_and_action (nanos : Nat) (k a : String) :
    hnapAuth nanos k a =
      upperHexBytes (hmacMD5 (utf8Bytes k)
          (utf8Bytes (toString (nanos / 1000000 % 2000000000000) ++
            ("http://purenetworks.com/HNAP1/" ++ a)))) ++
        " " ++ toString (nanos / 1000000 % 2000000000000) := by
  have hurl : (hnapBase ++ "/" : String) = "http://purenetworks.com/HNAP1/" := rfl
  simp only [hnapAuth, encrypt, hurl, String.append_assoc]

/-- C6: the login step succeeds exactly when the response body contains the
success marker "OK"; on success the cookie set is exactly the `uid` cookie
holding the server-issued cookie value and the `PrivateKey` cookie holding the
derived private key, both with path "/" and the Secure attribute; any other
body yields the authentication-failure error and no cookies. -/
theorem auth_success_iff_body_contains_marker (l : LoginResponse) (w body : String) :
    (strContains body "OK" = true →
      authCore l w body = Except.ok
        [{ Name := "uid", Value := l.Cookie, Path := "/", Secure := true },
         { Name := "PrivateKey", Value := privateKey l w, Path := "/", Secure := true }]) ∧
    (strContains body "OK" = false →
      authCore l w body = Except.error "Login Failed") := by
  constructor <;> intro h <;> simp [authCore, h]

/-- Witness for the login-success criterion: a body carrying "OK" yields
exactly the two session cookies, and a body without it fails. -/
theorem auth_success_iff_body_contains_marker_witness :
    authCore { Cookie := "c0" } "pw" "xxOKyy" = Except.ok
      [{ Name := "uid", Value := "c0", Path := "/", Secure := true },
       { Name := "PrivateKey", Value := privateKey { Cookie := "c0" } "pw", Path := "/",
         Secure := true }] ∧
    authCore { Cookie := "c0" } "pw" "denied" = Except.error "Login Failed" :=
  ⟨(auth_success_iff_body_contains_marker { Cookie := "c0" } "pw" "xxOKyy").1 (by decide),
   (auth_success_iff_body_contains_marker { Cookie := "c0" } "pw" "denied").2 (by decide)⟩

/-- C7: probing a readable fixture returns a fixture-backed instance exactly
when the byte content contains the S33 signature marker; the instance's name
is "S33" and it replays the captured content; content without the marker
yields no modem. -/
theorem probe_fixture_iff_marker (b : String) :
    (isS33 b = true → probeFixture b = some { fakeData := b }) ∧
    (isS33 b = false → probeFixture b = none) ∧
    (∀ m, probeFixture b = some m → m.Name = "S33" ∧ m.fakeData = b) := by
  refine ⟨fun h => by simp [probeFixture, h], fun h => by simp [probeFixture, h], fun m hm => ?_⟩
  by_cases h : isS33 b
  · simp only [probeFixture, if_pos h, Option.some.injEq] at hm
    exact ⟨rfl, by rw [← hm]⟩
  · simp [probeFixture, h] at hm

/-- Witness for the probe criterion: content embedding the marker is
recognized and named "S33"; content without it is rejected. -/
theorem probe_fixture_iff_marker_witness :
    probeFixture ("xx" ++ s33Marker ++ "yy") =
      some { fakeData := "xx" ++ s33Marker ++ "yy" } ∧
    probeFixture "<span> S34 </span>" = none :=
  ⟨(probe_fixture_iff_marker ("xx" ++ s33Marker ++ "yy")).1 (by decide),
   (probe_fixture_iff_marker "<span> S34 </span>").2.1 (by decide)⟩

/-- The " Hz" suffix check of the canonical form, computed on an appended
suffix: `s ++ " Hz"` is canonical exactly when `s` is an integer numeral. -/
theorem isCanonicalIntHz_append (s : String) :
    isCanonicalIntHz (s ++ " Hz") = isIntNumeral s.data := by
  have hd : (s ++ " Hz").data = s.data ++ [' ', 'H', 'z'] := String.data_append s " Hz"
  unfold isCanonicalIntHz
  rw [hd]
  have hl : (s.data ++ [' ', 'H', 'z']).length = s.data.length + 3 := by simp
  rw [hl]
  have h1 : s.data.length + 3 - 3 = s.data.length := by omega
  rw [h1, List.drop_left, List.take_left]
  simp

/-- C2 counterexample: the parser appends " Hz" to the raw column text without
any unit scaling or numeric validation, so a downstream row whose column 4
reads "441.5" yields the frequency string "441.5 Hz", which is not the string
representation of an integer number of Hz. -/
theorem frequency_not_normalized_counterexample :
    parseDownstreamTable "a^b^c^7^441.5^" =
      Except.ok [("7", { Modulation := "c", Frequency := "441.5 Hz" })] ∧
    isCanonicalIntHz "441.5 Hz" = false := by
  exact ⟨by decide, by decide⟩

/-- C2 amended: the frequency field is the source column string (downstream
column 4, upstream column 5) with " Hz" appended verbatim; no unit conversion
or validation is performed, so the result is a canonical "<integer> Hz" string
exactly when the source column is itself a decimal integer numeral, as the
real S33 payload columns (raw Hz) are. -/
theorem frequency_is_verbatim_column_with_Hz_suffix (dcols ucols : List String) :
    (4 < dcols.length → (downLoop 0 dcols ("", {})).2.Frequency = dcols.getD 4 "" ++ " Hz") ∧
    (4 < dcols.length → isIntNumeral (dcols.getD 4 "").data = true →
      isCanonicalIntHz (downLoop 0 dcols ("", {})).2.Frequency = true) ∧
    (5 < ucols.length → (upLoop 0 ucols ("", {})).2.Frequency = ucols.getD 5 "" ++ " Hz") ∧
    (5 < ucols.length → isIntNumeral (ucols.getD 5 "").data = true →
      isCanonicalIntHz (upLoop 0 ucols ("", {})).2.Frequency = true) := by
  rw [downLoop_closed, upLoop_closed]
  refine ⟨fun h => ?_, fun h hn => ?_, fun h => ?_, fun h hn => ?_⟩
  · show (if 4 < dcols.length then dcols.getD 4 "" ++ " Hz" else "") = dcols.getD 4 "" ++ " Hz"
    rw [if_pos h]
  · show isCanonicalIntHz (if 4 < dcols.length then dcols.getD 4 "" ++ " Hz" else "") = true
    rw [if_pos h, isCanonicalIntHz_append]
    exact hn
  · show (if 5 < ucols.length then ucols.getD 5 "" ++ " Hz" else "") = ucols.getD 5 "" ++ " Hz"
    rw [if_pos h]
  · show isCanonicalIntHz (if 5 < ucols.length then ucols.getD 5 "" ++ " Hz" else "") = true
    rw [if_pos h, isCanonicalIntHz_append]
    exact hn

/-- Witness for the amended frequency claim, at integer-Hz columns as the S33
reports them. -/
theorem frequency_is_verbatim_column_with_Hz_suffix_witness :
    (downLoop 0 ["a", "b", "QAM256", "7", "441000000"] ("", {})).2.Frequency =
      "441000000" ++ " Hz" ∧
    isCanonicalIntHz
      (downLoop 0 ["a", "b", "QAM256", "7", "441000000"] ("", {})).2.Frequency = true ∧
    (upLoop 0 ["a", "L", "SC-QAM", "5", "w", "36500000"] ("", {})).2.Frequency =
      "36500000" ++ " Hz" ∧
    isCanonicalIntHz
      (upLoop 0 ["a", "L", "SC-QAM", "5", "w", "36500000"] ("", {})).2.Frequency = true := by
  have h := frequency_is_verbatim_column_with_Hz_suffix
    ["a", "b", "QAM256", "7", "441000000"] ["a", "L", "SC-QAM", "5", "w", "36500000"]
  exact ⟨h.1 (by decide), h.2.1 (by decide) (by decide), h.2.2.1 (by decide),
    h.2.2.2 (by decide) (by decide)⟩

/-- C5: a non-numeric string in a numeric column (downstream power, SNR,
correctable, uncorrectable — columns 5 to 8 — or upstream power, column 6)
leaves exactly that field at its zero value; every other field of the row is
parsed from its own column as usual, and no error arises from cell contents:
the downstream parser never errors, and the upstream parser succeeds whenever
the row count exceeds two, regardless of the cells. -/
theorem bad_numeric_cell_yields_zero_field (dcols ucols : List String) (j : Nat)
    (hj : j = 5 ∨ j = 6 ∨ j = 7 ∨ j = 8)
    (hbad : goParseFloat (dcols.getD j "") = none)
    (hu : goParseFloat (ucols.getD 6 "") = none) :
    downNumField j (downLoop 0 dcols ("", {})).2 = 0 ∧
    (∀ k, (k = 5 ∨ k = 6 ∨ k = 7 ∨ k = 8) → k ≠ j →
      downNumField k (downLoop 0 dcols ("", {})).2 = goFloatD (dcols.getD k "")) ∧
    (downLoop 0 dcols ("", {})).2.Modulation = dcols.getD 2 "" ∧
    (downLoop 0 dcols ("", {})).1 = dcols.getD 3 "" ∧
    (downLoop 0 dcols ("", {})).2.Frequency =
      (if 4 < dcols.length then dcols.getD 4 "" ++ " Hz" else "") ∧
    (upLoop 0 ucols ("", {})).2.PowerLevel = 0 ∧
    (upLoop 0 ucols ("", {})).2.Status = ucols.getD 1 "" ∧
    (upLoop 0 ucols ("", {})).2.Modulation = ucols.getD 2 "" ∧
    (upLoop 0 ucols ("", {})).1 = ucols.getD 3 "" ∧
    (upLoop 0 ucols ("", {})).2.Frequency =
      (if 5 < ucols.length then ucols.getD 5 "" ++ " Hz" else "") ∧
    (∀ t, ∃ m, parseDownstreamTable t = Except.ok m) ∧
    (∀ t, 2 < (goSplitRows t).length → ∃ m, parseUpstreamTable t = Except.ok m) := by
  rw [downLoop_closed, upLoop_closed]
  refine ⟨?_, ?_, rfl, rfl, rfl, ?_, rfl, rfl, rfl, rfl, ?_, ?_⟩
  · rcases hj with rfl | rfl | rfl | rfl
    · show goFloatD (dcols.getD 5 "") = 0
      simp only [goFloatD, hbad, Option.getD_none]
    · show goFloatD (dcols.getD 6 "") = 0
      simp only [goFloatD, hbad, Option.getD_none]
    · show goFloatD (dcols.getD 7 "") = 0
      simp only [goFloatD, hbad, Option.getD_none]
    · show goFloatD (dcols.getD 8 "") = 0
      simp only [goFloatD, hbad, Option.getD_none]
  · intro k hk hne
    rcases hk with rfl | rfl | rfl | rfl <;> rfl
  · show goFloatD (ucols.getD 6 "") = 0
    simp only [goFloatD, hu, Option.getD_none]
  · intro t
    exact ⟨(goSplitRows t).foldl (insRow downRow) [], by simp [parseDownstreamTable]⟩
  · intro t ht
    have h2 : ¬ (goSplitRows t).length ≤ 2 := by omega
    exact ⟨(goSplitRows t).foldl (insRow upRow) [], by simp [parseUpstreamTable, h2]⟩

/-- Witness for the bad-cell tolerance: a downstream power cell "abc" and an
upstream power cell "xyz" both land as zero. -/
theorem bad_numeric_cell_yields_zero_field_witness :
    downNumField 5
      (downLoop 0 ["", "", "QAM256", "7", "441000000", "abc", "43", "1", "2"] ("", {})).2 = 0 ∧
    (upLoop 0 ["a", "L", "M", "5", "w", "36500000", "xyz"] ("", {})).2.PowerLevel = 0 := by
  have h := bad_numeric_cell_yields_zero_field
    ["", "", "QAM256", "7", "441000000", "abc", "43", "1", "2"]
    ["a", "L", "M", "5", "w", "36500000", "xyz"] 5 (Or.inl rfl) (by decide) (by decide)
  exact ⟨h.1, h.2.2.2.2.2.1⟩

/-- C8: when a table parses, every row's column-3 channel id is a key of the
output map, the key list has no duplicates, and hence each such id appears
exactly once. -/
theorem parsed_channel_keys_unique :
    (∀ t m, parseDownstreamTable t = Except.ok m →
      (goMapKeys m).Nodup ∧
        ∀ row ∈ goSplitRows t, List.count (downRow row).1 (goMapKeys m) = 1) ∧
    (∀ t m, parseUpstreamTable t = Except.ok m →
      (goMapKeys m).Nodup ∧
        ∀ row ∈ goSplitRows t, List.count (upRow row).1 (goMapKeys m) = 1) := by
  constructor
  · intro t m hm
    simp only [parseDownstreamTable, if_neg (Nat.not_lt_zero _), Except.ok.injEq] at hm
    subst hm
    have hnd := nodup_goMapKeys_foldl downRow (goSplitRows t) [] (by simp [goMapKeys])
    exact ⟨hnd, fun row hr =>
      List.count_eq_one_of_mem hnd (row_mem_goMapKeys_foldl downRow _ _ _ hr)⟩
  · intro t m hm
    by_cases h2 : (goSplitRows t).length ≤ 2
    · simp [parseUpstreamTable, h2] at hm
    · simp only [parseUpstreamTable, if_neg h2, Except.ok.injEq] at hm
      subst hm
      have hnd := nodup_goMapKeys_foldl upRow (goSplitRows t) [] (by simp [goMapKeys])
      exact ⟨hnd, fun row hr =>
        List.count_eq_one_of_mem hnd (row_mem_goMapKeys_foldl upRow _ _ _ hr)⟩

/-- Witness for key uniqueness on a concrete two-row downstream payload. -/
theorem parsed_channel_keys_unique_witness :
    (goMapKeys
      [("7", ({ Modulation := "c", Frequency := "f Hz" } : Downstream)),
       ("8", { Modulation := "c", Frequency := "f Hz" })]).Nodup ∧
    List.count (downRow "a^b^c^7^f^").1
      (goMapKeys
        [("7", ({ Modulation := "c", Frequency := "f Hz" } : Downstream)),
         ("8", { Modulation := "c", Frequency := "f Hz" })]) = 1 := by
  have h := parsed_channel_keys_unique.1 "a^b^c^7^f^|+|a^b^c^8^f^"
    [("7", { Modulation := "c", Frequency := "f Hz" }),
     ("8", { Modulation := "c", Frequency := "f Hz" })] (by decide)
  exact ⟨h.1, h.2 "a^b^c^7^f^" (by decide)⟩

/-- C9: the final field-separator-delimited field of a row is discarded —
the record is computed from the fields before it alone, each consumed by the
fixed index-to-field mapping given by the closed forms. -/
theorem trailing_field_discarded (row x : String) (c : List String)
    (hsplit : goSplitCols row = c ++ [x]) :
    downRow row = downLoop 0 c ("", {}) ∧ upRow row = upLoop 0 c ("", {}) ∧
    downRow row = downClosed c ∧ upRow row = upClosed c := by
  unfold downRow upRow
  rw [hsplit, List.dropLast_concat]
  exact ⟨rfl, rfl, downLoop_closed c, upLoop_closed c⟩

/-- Witness for the trailing-field rule on the row "a^b^": the trailing empty
field is dropped and the remaining fields feed the index mapping. -/
theorem trailing_field_discarded_witness :
    downRow "a^b^" = downClosed ["a", "b"] ∧ upRow "a^b^" = upClosed ["a", "b"] := by
  have h := trailing_field_discarded "a^b^" "" ["a", "b"] (by decide)
  exact ⟨h.2.2.1, h.2.2.2⟩

/-! ## Validation of the hash embedding against published test vectors -/

/-- RFC 1321 test vector: the MD5 of the empty message. -/
theorem md5_testvec_empty :
    upperHexBytes (md5Bytes []) = "D41D8CD98F00B204E9800998ECF8427E" := by decide

/-- RFC 1321 test vector: the MD5 of "abc". -/
theorem md5_testvec_abc :
    upperHexBytes (md5Bytes (utf8Bytes "abc")) = "900150983CD24FB0D6963F7D28E17F72" := by
  decide

/-- RFC 2202-style test vector for HMAC-MD5, phrased through `encrypt`. -/
theorem hmac_md5_testvec :
    encrypt "key" "The quick brown fox jumps over the lazy dog" =
      "80070713463E7749B90C2DC24911E275" := by decide

end Surfer
